import Mathlib

/-! Shallow embedding of the vSPC virtual serial port concentrator: the
    Telnet frame decoder, the RFC 1143 option negotiation state machines,
    the VM port registry with its backend access control, the vMotion
    handoff logic and the admin option server, together with theorems
    about their behaviour.  Python objects are modelled by explicit
    records; object identity is modelled by numeric identifiers; raised
    exceptions are modelled by Except / Option results. -/

namespace VspcLock

/-- Locking mode constants from vspc/lock.py. -/
def READWRITE : Nat := 0x00

def READONLY : Nat := 0x01

def EXCLUSIVE : Nat := 0x10

def EXCL_WRITE : Nat := 0x11

def READONLY_OK : Nat := 0x20

end VspcLock

/-- State of one VspcVmPort (vspc/server.py).  Backends are identified by
    numeric ids; the owning VMware-extension option handler (veo) by a
    numeric handler id, with none modelling Python None. -/
structure VspcVmPort where
  veo : Option Nat
  backends : List Nat
  readonly_backends : List Nat
  readwrite_backends : List Nat
  exclusive_backend : Option Nat
  exclusive_write_backend : Option Nat
deriving DecidableEq, Repr

/-- VspcVmPort.__init__: a fresh port starts with the built-in disk
    backend (modelled as backend id 0) in its backends list and with all
    the access-classification fields empty. -/
def VspcVmPort.mk_init (veo : Option Nat) : VspcVmPort :=
  ⟨veo, [0], [], [], none, none⟩

/-- VspcVmPort.determine_port_access: decide whether a new backend with
    the given requested access mode may attach.  Returns true for
    read-write access, false for read-only access; .error models a raised
    PortAccessDenied. -/
def VspcVmPort.determine_port_access (self : VspcVmPort) (requested_access : Nat) :
    Except Unit Bool :=
  let write_ok : Bool := requested_access != VspcLock.READONLY
  if self.exclusive_backend.isSome then
    .error ()
  else
    let ew : Except Unit Bool :=
      if self.exclusive_write_backend.isSome then
        if requested_access = VspcLock.READONLY_OK then .ok false
        else if requested_access ≠ VspcLock.READWRITE then .error ()
        else .ok write_ok
      else .ok write_ok
    match ew with
    | .error e => .error e
    | .ok w =>
      if requested_access = VspcLock.EXCLUSIVE then
        if self.readonly_backends ≠ [] ∨ self.readwrite_backends ≠ [] then .error ()
        else .ok w
      else if requested_access = VspcLock.EXCL_WRITE then
        if self.readwrite_backends ≠ [] then .error ()
        else .ok w
      else .ok w

/-- VspcVmPort.add_backend: append the backend to the backends list and
    record it in the classification matching the request. -/
def VspcVmPort.add_backend (self : VspcVmPort) (b : Nat) (requested_access : Nat)
    (write : Bool) : VspcVmPort :=
  let p := { self with backends := self.backends ++ [b] }
  if requested_access = VspcLock.EXCLUSIVE then
    { p with exclusive_backend := some b }
  else if requested_access = VspcLock.EXCL_WRITE then
    { p with exclusive_write_backend := some b }
  else if write then
    { p with readwrite_backends := p.readwrite_backends ++ [b] }
  else
    { p with readonly_backends := p.readonly_backends ++ [b] }

/-- VspcVmPort.remove_backend: remove the backend from the backends list
    and from whichever classification holds it.  A missing element makes
    Python list.remove raise ValueError, modelled by none. -/
def VspcVmPort.remove_backend (self : VspcVmPort) (b : Nat) : Option VspcVmPort :=
  if b ∈ self.backends then
    let p := { self with backends := self.backends.erase b }
    if p.exclusive_backend = some b then
      some { p with exclusive_backend := none }
    else if p.exclusive_write_backend = some b then
      some { p with exclusive_write_backend := none }
    else if b ∈ p.readwrite_backends then
      some { p with readwrite_backends := p.readwrite_backends.erase b }
    else if b ∈ p.readonly_backends then
      some { p with readonly_backends := p.readonly_backends.erase b }
    else none
  else none

/-- VspcVmPort.receive_bytes: the VM produced serial bytes.  Rejected
    with TelnetProtocolError (.error) unless the calling handler is the
    port's current veo; otherwise every registered backend receives the
    chunk, in registration order.  The result lists the deliveries made. -/
def VspcVmPort.receive_bytes (self : VspcVmPort) (veo : Nat) (b : List Nat) :
    Except Unit (List (Nat × List Nat)) :=
  if some veo ≠ self.veo then .error ()
  else .ok (self.backends.map fun backend => (backend, b))

/-- The guarded attach path used by VspcAdminOptionServerImpl
    .connect_to_vm_port: determine_port_access followed by add_backend. -/
def VspcVmPort.connect_backend (self : VspcVmPort) (b : Nat) (requested_access : Nat) :
    Except Unit VspcVmPort :=
  match self.determine_port_access requested_access with
  | .error e => .error e
  | .ok write_ok => .ok (self.add_backend b requested_access write_ok)

/-- A port whose only client backend (id 5) holds EXCL_WRITE access, with
    VM-side handler 7 attached; used as a concrete test state below. -/
def exclWritePort : VspcVmPort := ⟨some 7, [0, 5], [], [], none, some 5⟩

/-- The invariant claimed by the spec for VMPort backend accounting:
    an exclusive backend is the whole backends list, an exclusive-write
    backend excludes any other read-write backend, and the two exclusive
    slots are never both occupied. -/
def claimedPortInvariant (p : VspcVmPort) : Bool :=
  (match p.exclusive_backend with
   | some e => p.backends == [e]
   | none => true) &&
  (!p.exclusive_write_backend.isSome || p.readwrite_backends == []) &&
  !(p.exclusive_backend.isSome && p.exclusive_write_backend.isSome)

/-- The invariant the code actually maintains: an exclusive backend
    excludes any other client backend (the readonly/readwrite lists are
    empty, though the built-in disk backend stays in backends), and the
    two exclusive slots are never both occupied. -/
def portInvariant (p : VspcVmPort) : Bool :=
  (!p.exclusive_backend.isSome ||
     (p.readonly_backends == [] && p.readwrite_backends == [])) &&
  (!(p.exclusive_backend.isSome && p.exclusive_write_backend.isSome))

/-- A VM port id: in the source it is a string derived from the VC UUID
    and optional port label; the admin protocol transmits it as UTF-8
    bytes.  We model port ids directly as the byte lists sent on the
    wire, so the admin option's decode step is the identity. -/
abbrev PortId := List Nat

/-- A vMotion key: the sequence sent in VMOTION_BEGIN together with the
    8 random secret bytes generated by the server
    (TelnetVMwareExtensionOptionServer.VMotionKey). -/
structure VMotionKey where
  sequence : List Nat
  secret : List Nat
deriving DecidableEq, Repr

/-- VMotionKey.key: the broker lookup key, sequence concatenated with
    secret. -/
def VMotionKey.key (k : VMotionKey) : List Nat := k.sequence ++ k.secret

/-- State of one VspcTelnetVMwareExtensionOption handler
    (TelnetVMwareExtensionOptionServer fields plus the port reference
    added in vspc/server.py).  vmotion_peer holds the handler id of the
    vMotion source when this handler is a destination. -/
structure VeoState where
  vc_uuid : Option String
  vm_name : Option String
  vmotion : Option VMotionKey
  vmotion_peer : Option Nat
  port : Option PortId
deriving DecidableEq, Repr

/-- The process-wide mutable state touched by the vMotion logic: the live
    option handlers (by handler id), the VspcVmPort.vm_ports registry and
    the active_vmotion_peers broker mapping key bytes to the source
    handler id. -/
structure ServerState where
  handlers : List (Nat × VeoState)
  ports : List (PortId × VspcVmPort)
  active_vmotion_peers : List (List Nat × Nat)
deriving DecidableEq, Repr

/-- Look up a handler by id. -/
def ServerState.handler (st : ServerState) (h : Nat) : Option VeoState :=
  (st.handlers.find? (fun e => e.1 == h)).map (·.2)

/-- Look up a port by id in the vm_ports registry. -/
def ServerState.portOf (st : ServerState) (pid : PortId) : Option VspcVmPort :=
  (st.ports.find? (fun e => e.1 == pid)).map (·.2)

/-- Replace the state of handler h. -/
def ServerState.setHandler (st : ServerState) (h : Nat) (v : VeoState) : ServerState :=
  { st with handlers := st.handlers.map (fun e => if e.1 == h then (e.1, v) else e) }

/-- Replace the state of port pid. -/
def ServerState.setPort (st : ServerState) (pid : PortId) (p : VspcVmPort) : ServerState :=
  { st with ports := st.ports.map (fun e => if e.1 == pid then (e.1, p) else e) }

/-- VspcTelnetVMwareExtensionOption.switch_port_to_new_peer: the
    destination handler selfId claims the port of the source handler
    otherId.  .error models the raised TelnetProtocolError when the
    source has no port or the VC UUIDs conflict.  (Handler lookups cannot
    fail in the source, where they are direct object references.) -/
def switch_port_to_new_peer (st : ServerState) (selfId otherId : Nat) :
    Except Unit ServerState :=
  match st.handler selfId, st.handler otherId with
  | some d, some s =>
    match s.port with
    | none => .error ()
    | some pid =>
      if d.vc_uuid.isSome ∧ d.vc_uuid ≠ s.vc_uuid then .error ()
      else
        let d' : VeoState :=
          { d with
            vc_uuid := if s.vc_uuid.isSome ∧ d.vc_uuid = none then s.vc_uuid else d.vc_uuid
            vm_name := if s.vm_name.isSome ∧ d.vm_name = none then s.vm_name else d.vm_name
            port := some pid }
        let st' := st.setHandler selfId d'
        match st'.portOf pid with
        | some p => .ok (st'.setPort pid { p with veo := some selfId })
        | none => .error ()
  | _, _ => .error ()

/-- TelnetVMwareExtensionOptionServer._end_vmotion: drop the broker entry
    for this handler's pending vMotion key if present (the KeyError is
    swallowed), then clear this handler's vmotion and vmotion_peer. -/
def end_vmotion (st : ServerState) (selfId : Nat) : ServerState :=
  match st.handler selfId with
  | none => st
  | some h =>
    let st' :=
      match h.vmotion with
      | some k =>
        { st with active_vmotion_peers :=
            st.active_vmotion_peers.eraseP (fun e => e.1 == k.key) }
      | none => st
    st'.setHandler selfId { h with vmotion := none, vmotion_peer := none }

/-- TelnetVMwareExtensionOptionServer.complete_vmotion: when a peer is
    recorded, apply the port handoff, then end the vMotion on this
    handler. -/
def complete_vmotion (st : ServerState) (selfId : Nat) : Except Unit ServerState :=
  match st.handler selfId with
  | none => .error ()
  | some h =>
    match h.vmotion_peer with
    | some otherId =>
      match switch_port_to_new_peer st selfId otherId with
      | .error e => .error e
      | .ok st' => .ok (end_vmotion st' selfId)
    | none => .ok (end_vmotion st selfId)

/-- TelnetVMwareExtensionOptionServer.abort_vmotion: unconditionally end
    any vMotion recorded on this handler. -/
def abort_vmotion (st : ServerState) (selfId : Nat) : ServerState :=
  end_vmotion st selfId

/-- VspcTelnetVMwareExtensionOption.del_port: remove the port from the
    registry, but only when this handler is still the owning veo. -/
def del_port (st : ServerState) (selfId : Nat) : ServerState :=
  match st.handler selfId with
  | none => st
  | some h =>
    match h.port with
    | none => st
    | some pid =>
      match st.portOf pid with
      | none => st
      | some p =>
        if p.veo = some selfId then
          { st with ports := st.ports.eraseP (fun e => e.1 == pid) }
        else st

/-- VspcTelnetVMwareExtensionOption.disconnect_from_vm_port: detach the
    port's veo, but only when this handler is still the owning veo.
    (When del_port already removed the port from the registry the
    remaining mutation of the unreachable port object is dropped.) -/
def disconnect_from_vm_port (st : ServerState) (selfId : Nat) : ServerState :=
  match st.handler selfId with
  | none => st
  | some h =>
    match h.port with
    | none => st
    | some pid =>
      match st.portOf pid with
      | none => st
      | some p =>
        if p.veo = some selfId then st.setPort pid { p with veo := none }
        else st

/-- The cleanup performed by the finally block of vm_port_accept when a
    VM connection task ends: del_port followed by disconnect_from_vm_port.
    Nothing else is run; in particular the vMotion broker is not touched. -/
def vm_port_cleanup (st : ServerState) (selfId : Nat) : ServerState :=
  disconnect_from_vm_port (del_port st selfId) selfId

/-- VspcTelnetVMwareExtensionOption.receive_bytes: in-band data arrived
    from the VM connection owning handler selfId.  Raises (.error) when
    no port is associated yet; re-adopts a port whose veo is unset; then
    delivers through VspcVmPort.receive_bytes.  Returns the new state and
    the deliveries made to backends. -/
def veo_receive_bytes (st : ServerState) (selfId : Nat) (b : List Nat) :
    Except Unit (ServerState × List (Nat × List Nat)) :=
  match st.handler selfId with
  | none => .error ()
  | some h =>
    match h.port with
    | none => .error ()
    | some pid =>
      match st.portOf pid with
      | none => .error ()
      | some p =>
        let p' := if p.veo = none then { p with veo := some selfId } else p
        let st' := if p.veo = none then st.setPort pid p' else st
        match p'.receive_bytes selfId b with
        | .error e => .error e
        | .ok ds => .ok (st', ds)

namespace VspcAdmin

/-- Subcommand constants from vspc/admin_option.py. -/
def GET_VM_PORT_LIST : Nat := 0x10

def VM_PORT_LIST : Nat := 0x11

def VM_PORT_SET_CONNECTION : Nat := 0x20

def VM_PORT_CONNECTED : Nat := 0x21

def VM_PORT_DISCONNECTED : Nat := 0x22

/-- State of one VspcAdminOptionServerImpl: the port this admin client is
    attached to and the backend object registered for it. -/
structure AdminState where
  port : Option PortId
  port_backend : Option Nat
deriving DecidableEq, Repr

/-- VspcAdminOptionServerImpl.disconnect_from_vm_port: detach from any
    current port by removing the registered backend. -/
def disconnect_from_vm_port (st : ServerState) (a : AdminState) :
    ServerState × AdminState :=
  match a.port with
  | none => (st, a)
  | some pid =>
    let st' :=
      match a.port_backend, st.portOf pid with
      | some b, some p =>
        match p.remove_backend b with
        | some p' => st.setPort pid p'
        | none => st
      | _, _ => st
    (st', ⟨none, none⟩)

/-- VspcAdminOptionServerImpl.connect_to_vm_port: disconnect, then look
    up the port and attach as a backend.  The source returns False when
    the port id is unknown (the raise of PortNotFound is commented out)
    and False when determine_port_access raises PortAccessDenied (caught
    locally); on success it falls through and returns None.  No exception
    ever escapes this method. -/
def connect_to_vm_port (st : ServerState) (a : AdminState) (newBackend : Nat)
    (vm_port_id : Option PortId) (requested_access : Nat) :
    ServerState × AdminState × Option Bool :=
  let (st1, a1) := disconnect_from_vm_port st a
  match vm_port_id with
  | none => (st1, a1, some false)
  | some pid =>
    match st1.portOf pid with
    | none => (st1, a1, some false)
    | some p =>
      match p.determine_port_access requested_access with
      | .error _ => (st1, a1, some false)
      | .ok write_ok =>
        (st1.setPort pid (p.add_backend newBackend requested_access write_ok),
         ⟨some pid, some newBackend⟩, none)

/-- VspcAdminOptionServer.subnegotiate: handle an admin subnegotiation
    and produce the reply subcommand bytes sent back (the VM_PORT_LIST
    payload encoding is not modelled).  .error models the raised
    TelnetProtocolError on bad shapes.  In the VM_PORT_SET_CONNECTION
    branch with len greater than 2 the reply is always VM_PORT_CONNECTED:
    connect_to_vm_port returns False instead of raising, so the except
    PortNotFound / PortAccessDenied clauses setting ok to False are
    unreachable. -/
def subnegotiate (st : ServerState) (a : AdminState) (newBackend : Nat)
    (subneg_data : List Nat) :
    Except Unit (ServerState × AdminState × List Nat) :=
  match subneg_data with
  | [] => .error ()
  | subcmd :: rest =>
    if subcmd = GET_VM_PORT_LIST ∧ rest = [] then
      .ok (st, a, [VM_PORT_LIST])
    else if subcmd = VM_PORT_SET_CONNECTION then
      match rest with
      | [] =>
        match connect_to_vm_port st a newBackend none 0 with
        | (st1, a1, _) => .ok (st1, a1, [VM_PORT_DISCONNECTED])
      | [_] => .error ()
      | locking_mode :: pid_bytes =>
        match connect_to_vm_port st a newBackend (some pid_bytes) locking_mode with
        | (st1, a1, _) => .ok (st1, a1, [VM_PORT_CONNECTED])
    else .error ()

end VspcAdmin

/-- A port owned by handler 3 with the disk backend and one read-write
    client backend 4; used as a concrete test state below. -/
def samplePort : VspcVmPort := ⟨some 3, [0, 4], [], [4], none, none⟩

/-- C2: VspcVmPort.receive_bytes rejects with TelnetProtocolError exactly
    when the calling handler is not the port's veo, otherwise delivers
    the chunk to every backend in registration order; hence at most one
    handler can successfully deliver inbound data to a given port. -/
theorem claim_C2 (p : VspcVmPort) (h : Nat) (chunk : List Nat) :
    (p.receive_bytes h chunk = .error () ↔ p.veo ≠ some h) ∧
    (p.veo = some h →
      p.receive_bytes h chunk = .ok (p.backends.map fun bk => (bk, chunk))) ∧
    (∀ h1 h2 r1 r2, p.receive_bytes h1 chunk = .ok r1 →
      p.receive_bytes h2 chunk = .ok r2 → h1 = h2) := by
  refine ⟨?_, ?_, ?_⟩
  · unfold VspcVmPort.receive_bytes
    split
    · rename_i hcond
      simp only [true_iff]
      exact fun heq => hcond heq.symm
    · rename_i hcond
      simp only [reduceCtorEq, false_iff, ne_eq, not_not]
      exact (not_ne_iff.mp hcond).symm
  · intro hv
    unfold VspcVmPort.receive_bytes
    simp [hv]
  · intro h1 h2 r1 r2 hr1 hr2
    unfold VspcVmPort.receive_bytes at hr1 hr2
    split at hr1
    · exact absurd hr1 (by simp)
    · split at hr2
      · exact absurd hr2 (by simp)
      · rename_i hc1 hc2
        have e1 : p.veo = some h1 := (not_ne_iff.mp hc1).symm
        have e2 : p.veo = some h2 := (not_ne_iff.mp hc2).symm
        rw [e1] at e2
        exact Option.some.inj e2

/-- C2 witness: handler 3 owns samplePort and successfully delivers to
    both backends in registration order. -/
theorem claim_C2_witness :
    samplePort.veo = some 3 ∧
    samplePort.receive_bytes 3 [9, 8] = .ok [(0, [9, 8]), (4, [9, 8])] :=
  ⟨rfl, (claim_C2 samplePort 3 [9, 8]).2.1 rfl⟩

/-- C3: on a port with exclusive_write_backend set and no
    exclusive_backend, determine_port_access DENIES a READONLY request
    (the elif chain raises PortAccessDenied for everything other than
    READONLY_OK and READWRITE), although vspc/lock.py documents that
    other read-only connections are OK alongside EXCL_WRITE and the spec
    says READONLY is granted read-only access.  The other modes behave as
    the spec says: READONLY_OK is downgraded to read-only, READWRITE is
    granted read-write, EXCLUSIVE and EXCL_WRITE are denied. -/
theorem claim_C3 :
    exclWritePort.exclusive_backend = none ∧
    exclWritePort.exclusive_write_backend = some 5 ∧
    exclWritePort.determine_port_access VspcLock.READONLY = .error () ∧
    exclWritePort.determine_port_access VspcLock.READONLY_OK = .ok false ∧
    exclWritePort.determine_port_access VspcLock.READWRITE = .ok true ∧
    exclWritePort.determine_port_access VspcLock.EXCLUSIVE = .error () ∧
    exclWritePort.determine_port_access VspcLock.EXCL_WRITE = .error () :=
  ⟨rfl, rfl, rfl, rfl, rfl, rfl, rfl⟩

/-- C7 counterexample: the claimed invariant is not preserved by the
    code's operations.  Granting EXCLUSIVE on a fresh port (which always
    also carries the built-in disk backend 0) leaves two entries in
    backends, so backends is not the one-element list of the exclusive
    backend; and granting READWRITE on a port whose exclusive-write
    backend is set is allowed by determine_port_access, creating another
    writer alongside the EXCL_WRITE holder. -/
theorem claim_C7_counterexample :
    claimedPortInvariant (VspcVmPort.mk_init none) = true ∧
    VspcVmPort.connect_backend (VspcVmPort.mk_init none) 1 VspcLock.EXCLUSIVE =
      .ok ⟨none, [0, 1], [], [], some 1, none⟩ ∧
    claimedPortInvariant ⟨none, [0, 1], [], [], some 1, none⟩ = false ∧
    claimedPortInvariant exclWritePort = true ∧
    VspcVmPort.connect_backend exclWritePort 8 VspcLock.READWRITE =
      .ok ⟨some 7, [0, 5, 8], [], [8], none, some 5⟩ ∧
    claimedPortInvariant ⟨some 7, [0, 5, 8], [], [8], none, some 5⟩ = false :=
  ⟨rfl, rfl, rfl, rfl, rfl, rfl⟩

/-- C7 amended: creation, the guarded add_backend path and remove_backend
    preserve the invariant the code actually maintains: when
    exclusive_backend is set no other client backend is registered (the
    readonly and readwrite classifications are empty; the built-in disk
    backend remains in backends), and exclusive_backend and
    exclusive_write_backend are never both set.  The no-other-writer
    property for exclusive_write_backend is not preserved (READWRITE
    requests are still admitted alongside it). -/
theorem claim_C7 :
    (∀ v, portInvariant (VspcVmPort.mk_init v) = true) ∧
    (∀ p b r p', portInvariant p = true →
      VspcVmPort.connect_backend p b r = .ok p' → portInvariant p' = true) ∧
    (∀ p b p', portInvariant p = true →
      VspcVmPort.remove_backend p b = some p' → portInvariant p' = true) := by
  refine ⟨fun v => rfl, ?_, ?_⟩
  · intro p b r p' hinv hc
    obtain ⟨veo, bks, ro, rw, ex, ew⟩ := p
    cases ex with
    | some e =>
      simp [VspcVmPort.connect_backend, VspcVmPort.determine_port_access] at hc
    | none =>
      by_cases hexc : r = VspcLock.EXCLUSIVE
      · subst hexc
        cases ew with
        | some w =>
          simp [VspcVmPort.connect_backend, VspcVmPort.determine_port_access,
                VspcLock.EXCLUSIVE, VspcLock.READONLY_OK, VspcLock.READWRITE] at hc
        | none =>
          by_cases hro : ro = []
          · by_cases hrw : rw = []
            · subst hro; subst hrw
              simp [VspcVmPort.connect_backend, VspcVmPort.determine_port_access,
                    VspcVmPort.add_backend] at hc
              subst hc
              simp [portInvariant]
            · simp [VspcVmPort.connect_backend, VspcVmPort.determine_port_access,
                    hrw] at hc
          · simp [VspcVmPort.connect_backend, VspcVmPort.determine_port_access,
                  hro] at hc
      · -- any request other than EXCLUSIVE leaves exclusive_backend empty,
        -- which makes the maintained invariant trivially true
        have hex' : p'.exclusive_backend = none := by
          simp only [VspcVmPort.connect_backend] at hc
          split at hc
          · exact absurd hc (by simp)
          · have h2 := Except.ok.inj hc
            subst h2
            simp only [VspcVmPort.add_backend, if_neg hexc]
            split
            · rfl
            · split <;> rfl
        simp [portInvariant, hex']
  · intro p b p' hinv hr
    obtain ⟨veo, bks, ro, rw, ex, ew⟩ := p
    cases ex with
    | none =>
      -- removal never sets exclusive_backend, so the invariant is trivial
      simp only [VspcVmPort.remove_backend] at hr
      split at hr
      · rw [if_neg (by simp)] at hr
        split at hr
        · have h2 := Option.some.inj hr
          subst h2
          simp [portInvariant]
        · split at hr
          · have h2 := Option.some.inj hr
            subst h2
            simp [portInvariant]
          · split at hr
            · have h2 := Option.some.inj hr
              subst h2
              simp [portInvariant]
            · exact absurd hr (by simp)
      · exact absurd hr (by simp)
    | some e =>
      have hinv' := hinv
      simp [portInvariant] at hinv'
      obtain ⟨⟨hro, hrw⟩, hew⟩ := hinv'
      subst hro; subst hrw; subst hew
      simp only [VspcVmPort.remove_backend] at hr
      split at hr
      · split at hr
        · have h2 := Option.some.inj hr
          subst h2
          simp [portInvariant]
        · simp at hr
      · exact absurd hr (by simp)

/-- C7 witness: the maintained invariant holds on a fresh port and is
    preserved when backend 1 is granted EXCLUSIVE access on it. -/
theorem claim_C7_witness :
    portInvariant (VspcVmPort.mk_init none) = true ∧
    VspcVmPort.connect_backend (VspcVmPort.mk_init none) 1 VspcLock.EXCLUSIVE =
      .ok ⟨none, [0, 1], [], [], some 1, none⟩ ∧
    portInvariant ⟨none, [0, 1], [], [], some 1, none⟩ = true :=
  ⟨rfl, rfl, claim_C7.2.1 (VspcVmPort.mk_init none) 1 VspcLock.EXCLUSIVE
    ⟨none, [0, 1], [], [], some 1, none⟩ rfl rfl⟩

/-- A concrete pending-vMotion key. -/
def vmKeyEx : VMotionKey := ⟨[0, 1], [2, 3, 4, 5, 6, 7, 8, 9]⟩

/-- A destination handler that processed VMOTION_PEER for vmKeyEx: it
    copied the source's pending key and remembered the source handler
    (id 1) as vmotion_peer. -/
def destVeo : VeoState := ⟨none, none, some vmKeyEx, some 1, none⟩

/-- The source handler (id 1) with a pending vMotion for vmKeyEx, owning
    port [10]. -/
def srcVeo : VeoState := ⟨some "42", some "vm", some vmKeyEx, none, some [10]⟩

/-- The port owned by the source handler, with the disk backend and one
    read-only client backend. -/
def srcPort : VspcVmPort := ⟨some 1, [0, 4], [4], [], none, none⟩

/-- The server state just before the destination (handler 0) processes
    VMOTION_COMPLETE: broker maps vmKeyEx to the source handler 1. -/
def preCompleteState : ServerState :=
  ⟨[(0, destVeo), (1, srcVeo)], [([10], srcPort)], [(vmKeyEx.key, 1)]⟩

/-- C1 counterexample: after a successful VMOTION_COMPLETE the source
    handler's vmotion field is NOT cleared (_end_vmotion only clears the
    destination's fields), contradicting the claim that D.vmotion,
    S.vmotion and D.vmotion_peer are all cleared.  Everything else the
    claim lists does happen: the broker entry is removed, the destination
    owns the port, and the backends are untouched. -/
theorem claim_C1_counterexample :
    complete_vmotion preCompleteState 0 =
      .ok ⟨[(0, ⟨some "42", some "vm", none, none, some [10]⟩), (1, srcVeo)],
           [([10], ⟨some 0, [0, 4], [4], [], none, none⟩)], []⟩ ∧
    srcVeo.vmotion = some vmKeyEx :=
  ⟨rfl, rfl⟩

/-- C1 amended: when the destination handler dId (with vmotion_peer set
    to the source sId) processes a VMOTION_COMPLETE that succeeds (the
    source has a port and the VC UUIDs do not conflict), the broker entry
    for the pending migration is removed, the destination owns the
    source's VMPort, the port's veo is the destination (so it no longer
    equals the source), the destination's vmotion and vmotion_peer are
    cleared, the source handler's state -- including its vmotion field --
    is left entirely unchanged, and the port's backends and access
    classifications are exactly what they were before. -/
theorem claim_C1 (dId sId : Nat) (d s : VeoState) (pid : PortId) (p : VspcVmPort)
    (k : VMotionKey) (hne : sId ≠ dId)
    (hpeer : d.vmotion_peer = some sId) (hkey : d.vmotion = some k)
    (hsport : s.port = some pid)
    (huuid : d.vc_uuid.isSome → d.vc_uuid = s.vc_uuid) :
    ∃ d',
      complete_vmotion ⟨[(dId, d), (sId, s)], [(pid, p)], [(k.key, sId)]⟩ dId =
        .ok ⟨[(dId, d'), (sId, s)], [(pid, { p with veo := some dId })], []⟩ ∧
      d'.port = some pid ∧ d'.vmotion = none ∧ d'.vmotion_peer = none ∧
      (some dId : Option Nat) ≠ some sId ∧
      ({ p with veo := some dId } : VspcVmPort).backends = p.backends ∧
      ({ p with veo := some dId } : VspcVmPort).readonly_backends = p.readonly_backends ∧
      ({ p with veo := some dId } : VspcVmPort).readwrite_backends = p.readwrite_backends ∧
      ({ p with veo := some dId } : VspcVmPort).exclusive_backend = p.exclusive_backend ∧
      ({ p with veo := some dId } : VspcVmPort).exclusive_write_backend =
        p.exclusive_write_backend := by
  have hbne : (dId == sId) = false := beq_eq_false_iff_ne.mpr fun he => hne he.symm
  have hbne' : (sId == dId) = false := beq_eq_false_iff_ne.mpr hne
  have hguard : ¬(d.vc_uuid.isSome ∧ d.vc_uuid ≠ s.vc_uuid) := by
    rintro ⟨hs, hnev⟩
    exact hnev (huuid hs)
  refine ⟨{ d with
      vc_uuid := if s.vc_uuid.isSome ∧ d.vc_uuid = none then s.vc_uuid else d.vc_uuid
      vm_name := if s.vm_name.isSome ∧ d.vm_name = none then s.vm_name else d.vm_name
      vmotion := none, vmotion_peer := none, port := some pid },
    ?_, rfl, rfl, rfl, by simp [hne.symm], rfl, rfl, rfl, rfl, rfl⟩
  simp [complete_vmotion, switch_port_to_new_peer, end_vmotion,
    ServerState.handler, ServerState.setHandler, ServerState.portOf,
    ServerState.setPort, List.find?, List.eraseP, hpeer, hkey, hsport,
    hbne, hbne', hne, if_neg hguard]

/-- C1 witness: the amended handoff theorem applied to the concrete
    pre-migration state with destination handler 0 and source handler 1. -/
theorem claim_C1_witness :
    (1 : Nat) ≠ 0 ∧ destVeo.vmotion_peer = some 1 ∧ destVeo.vmotion = some vmKeyEx ∧
    srcVeo.port = some [10] ∧
    ∃ d',
      complete_vmotion preCompleteState 0 =
        .ok ⟨[(0, d'), (1, srcVeo)], [([10], { srcPort with veo := some 0 })], []⟩ ∧
      d'.port = some [10] ∧ d'.vmotion = none ∧ d'.vmotion_peer = none ∧
      (some 0 : Option Nat) ≠ some 1 ∧
      ({ srcPort with veo := some 0 } : VspcVmPort).backends = srcPort.backends ∧
      ({ srcPort with veo := some 0 } : VspcVmPort).readonly_backends =
        srcPort.readonly_backends ∧
      ({ srcPort with veo := some 0 } : VspcVmPort).readwrite_backends =
        srcPort.readwrite_backends ∧
      ({ srcPort with veo := some 0 } : VspcVmPort).exclusive_backend =
        srcPort.exclusive_backend ∧
      ({ srcPort with veo := some 0 } : VspcVmPort).exclusive_write_backend =
        srcPort.exclusive_write_backend :=
  ⟨by decide, rfl, rfl, rfl,
    claim_C1 0 1 destVeo srcVeo [10] srcPort vmKeyEx (by decide) rfl rfl rfl
      (by decide)⟩

/-- The server state where the destination handler 0 (vmotion copied from
    the broker via VMOTION_PEER, vmotion_peer pointing at source 1) is
    about to process a message it should not act on. -/
def destOnlyState : ServerState := ⟨[(0, destVeo)], [], [(vmKeyEx.key, 1)]⟩

/-- The server state where only the source handler 1 (vmotion set,
    vmotion_peer unset) is present with its port and broker entry. -/
def srcOnlyState : ServerState :=
  ⟨[(1, srcVeo)], [([10], srcPort)], [(vmKeyEx.key, 1)]⟩

/-- C5: wrong-role vMotion control messages are NOT side-effect free.
    A VMOTION_ABORT processed by the destination handler removes the
    broker entry (which maps the key to the source!) and clears the
    destination's vmotion fields, because abort_vmotion unconditionally
    calls _end_vmotion; and a VMOTION_COMPLETE processed by the source
    handler likewise removes the broker entry and clears the source's
    vmotion.  Both contradict the claim (and the docstrings in
    telnet/option.py saying such messages must have no effect). -/
theorem claim_C5 :
    destOnlyState.active_vmotion_peers = [(vmKeyEx.key, 1)] ∧
    abort_vmotion destOnlyState 0 =
      ⟨[(0, ⟨none, none, none, none, none⟩)], [], []⟩ ∧
    srcOnlyState.active_vmotion_peers = [(vmKeyEx.key, 1)] ∧
    complete_vmotion srcOnlyState 1 =
      .ok ⟨[(1, ⟨some "42", some "vm", none, none, some [10]⟩)],
           [([10], srcPort)], []⟩ :=
  ⟨rfl, rfl, rfl, rfl⟩

/-- A VM-side handler (id 2) that created a broker entry via
    VMOTION_BEGIN and still owns its port when its connection tears
    down. -/
def tornVeo : VeoState := ⟨some "42", some "vm", some vmKeyEx, none, some [10]⟩

/-- The port owned by handler 2. -/
def tornPort : VspcVmPort := ⟨some 2, [0], [], [], none, none⟩

/-- The server state at the moment handler 2's connection task ends. -/
def preTeardownState : ServerState :=
  ⟨[(2, tornVeo)], [([10], tornPort)], [(vmKeyEx.key, 2)]⟩

/-- C6: the cleanup run when a VM connection task ends (del_port followed
    by disconnect_from_vm_port in the finally block of vm_port_accept)
    does NOT remove the vMotion broker entry the handler created via
    VMOTION_BEGIN: after teardown the broker still maps the key to the
    dead handler 2, contradicting the claim (the source itself carries an
    XXX comment admitting that incomplete vMotions need to be abandoned
    on teardown). -/
theorem claim_C6 :
    vm_port_cleanup preTeardownState 2 =
      ⟨[(2, tornVeo)], [], [(vmKeyEx.key, 2)]⟩ ∧
    (vm_port_cleanup preTeardownState 2).active_vmotion_peers =
      preTeardownState.active_vmotion_peers ∧
    (vmKeyEx.key, 2) ∈ (vm_port_cleanup preTeardownState 2).active_vmotion_peers :=
  ⟨rfl, rfl, by decide⟩

/-- C10: a handler whose port has no owning veo (as left behind by
    disconnect_from_vm_port on the previous owner's teardown) does not
    raise from receive_bytes: it silently re-adopts the port (setting
    port.veo to itself) and delivers the chunk to the port's backends. -/
theorem claim_C10 (hId : Nat) (h : VeoState) (pid : PortId) (p : VspcVmPort)
    (bs : List (List Nat × Nat)) (b : List Nat)
    (hport : h.port = some pid) (hveo : p.veo = none) :
    veo_receive_bytes ⟨[(hId, h)], [(pid, p)], bs⟩ hId b =
      .ok (⟨[(hId, h)], [(pid, { p with veo := some hId })], bs⟩,
           p.backends.map fun bk => (bk, b)) := by
  simp [veo_receive_bytes, ServerState.handler, ServerState.portOf,
        ServerState.setPort, List.find?, hport, hveo, VspcVmPort.receive_bytes]

/-- A port left veo-less by the previous owner's teardown. -/
def detachedPort : VspcVmPort := ⟨none, [0, 4], [], [4], none, none⟩

/-- C10 witness: handler 5 re-adopts detachedPort and delivers to both
    its backends. -/
theorem claim_C10_witness :
    tornVeo.port = some [10] ∧ detachedPort.veo = none ∧
    veo_receive_bytes ⟨[(5, tornVeo)], [([10], detachedPort)], []⟩ 5 [7] =
      .ok (⟨[(5, tornVeo)], [([10], { detachedPort with veo := some 5 })], []⟩,
           detachedPort.backends.map fun bk => (bk, [7])) :=
  ⟨rfl, rfl, claim_C10 5 tornVeo [10] detachedPort [] [7] rfl rfl⟩

/-- The empty server state and a fresh admin handler. -/
def emptyState : ServerState := ⟨[], [], []⟩

/-- A fresh admin handler attached to no port. -/
def adminFresh : VspcAdmin.AdminState := ⟨none, none⟩

/-- A registry holding one port [121] locked EXCLUSIVE by backend 6. -/
def exclState : ServerState :=
  ⟨[], [([121], ⟨some 7, [6], [], [], some 6, none⟩)], []⟩

/-- C4: a VM_PORT_SET_CONNECTION subnegotiation whose attach fails is
    nevertheless answered with VM_PORT_CONNECTED.  The admin handler's
    except PortNotFound / PortAccessDenied clauses never fire because
    VspcAdminOptionServerImpl.connect_to_vm_port returns False instead of
    raising (the raise is commented out and PortAccessDenied is caught
    internally), so ok is always True.  Shown both for a port id that
    does not exist and for a port whose access check denies the request. -/
theorem claim_C4 :
    emptyState.portOf [120] = none ∧
    VspcAdmin.subnegotiate emptyState adminFresh 5 [0x20, 0, 120] =
      .ok (emptyState, adminFresh, [VspcAdmin.VM_PORT_CONNECTED]) ∧
    (⟨some 7, [6], [], [], some 6, none⟩ : VspcVmPort).determine_port_access
      VspcLock.READWRITE = .error () ∧
    VspcAdmin.subnegotiate exclState adminFresh 5 [0x20, 0, 121] =
      .ok (exclState, adminFresh, [VspcAdmin.VM_PORT_CONNECTED]) :=
  ⟨rfl, rfl, rfl, rfl⟩

/-- A decoded Telnet event produced by TelnetProtocolDecoder.__anext__:
    in-band data, a control function, an option negotiation or an option
    subnegotiation (payload with IAC-escaping removed). -/
inductive TelnetEvent where
  | data (bytes : List Nat)
  | func (code : Nat)
  | negotiation (action : Nat) (option_code : Nat)
  | subnegotiation (option_code : Nat) (payload : List Nat)
deriving DecidableEq, Repr

/-- IAC escaping as performed by TelnetProtocol.send_data and
    OptionSubnegotiation.__bytes__: every 0xFF byte is doubled. -/
def escapeIAC : List Nat → List Nat
  | [] => []
  | b :: rest => if b = 255 then 255 :: 255 :: escapeIAC rest else b :: escapeIAC rest

/-- Re-encode one decoded event to wire bytes, as the send side does:
    data via send_data (IAC doubled), control functions as IAC code,
    negotiations as IAC action code (OptionNegotiation.__bytes__), and
    subnegotiations as IAC SB code escaped-payload IAC SE
    (OptionSubnegotiation.__bytes__; note the option code byte itself is
    not escaped there). -/
def encodeEvent : TelnetEvent → List Nat
  | .data bs => escapeIAC bs
  | .func c => [255, c]
  | .negotiation a o => [255, a, o]
  | .subnegotiation code payload => 255 :: 250 :: code :: (escapeIAC payload ++ [255, 240])

/-- Re-encode a whole event stream. -/
def encodeEvents : List TelnetEvent → List Nat
  | [] => []
  | e :: es => encodeEvent e ++ encodeEvents es

/-- Prepend one decoded event to the result of decoding the remainder,
    propagating a decode error. -/
def consEvent (e : TelnetEvent) : Except Unit (List TelnetEvent) → Except Unit (List TelnetEvent)
  | .ok es => .ok (e :: es)
  | .error err => .error err

/-- The full decode loop of TelnetProtocolDecoder.__anext__, run to end
    of stream over a byte list (the whole input in one buffer, as in
    TelnetProtocolTest).  mode none is the top-level loop; mode some acc
    is the subnegotiation accumulation loop with the bytes gathered so
    far.  Data bytes are emitted one chunk per byte; the source groups
    runs of non-IAC bytes into buffer-dependent maximal chunks via
    until_IAC, which concatenate to the same byte sequence.  Reaching end
    of stream in the middle of a command or subnegotiation raises
    EOFError in the source, which the connection task treats as normal
    termination: the events already produced stand, modelled by
    returning them.  .error models TelnetProtocolError. -/
def decodeAux : Option (List Nat) → List Nat → Except Unit (List TelnetEvent)
  | none, [] => .ok []
  | none, x :: rest =>
    if x = 255 then
      match rest with
      | [] => .ok []
      | c :: r =>
        if c = 241 then decodeAux none r
        else if 242 ≤ c ∧ c ≤ 249 then consEvent (.func c) (decodeAux none r)
        else if c = 251 ∨ c = 252 ∨ c = 253 ∨ c = 254 then
          match r with
          | [] => .ok []
          | o :: r2 => consEvent (.negotiation c o) (decodeAux none r2)
        else if c = 255 then consEvent (.data [255]) (decodeAux none r)
        else if c = 240 then .error ()
        else if c = 250 then decodeAux (some []) r
        else decodeAux none r
    else consEvent (.data [x]) (decodeAux none rest)
  | some _, [] => .ok []
  | some acc, x :: rest =>
    if x = 255 then
      match rest with
      | [] => .ok []
      | c :: r =>
        if c = 255 then decodeAux (some (acc ++ [255])) r
        else if c = 240 then
          match acc with
          | [] => .error ()
          | code :: payload => consEvent (.subnegotiation code payload) (decodeAux none r)
        else .error ()
    else decodeAux (some (acc ++ [x])) rest

/-- Decode a complete byte stream into events. -/
def decodeEvents (xs : List Nat) : Except Unit (List TelnetEvent) :=
  decodeAux none xs

/-- Inputs for which decoding is lossless: no truncated command at end of
    stream, no IAC NOP and no IAC with an unrecognized command byte
    (both are silently dropped by the decoder), no protocol errors, and
    every subnegotiation properly terminated with a nonempty payload
    whose first byte (the option code) is not IAC (the re-encoder does
    not escape the code byte).  The some branch tracks whether the
    accumulated payload is already nonempty. -/
def goodAux : Option Bool → List Nat → Bool
  | none, [] => true
  | none, x :: rest =>
    if x = 255 then
      match rest with
      | [] => false
      | c :: r =>
        if c = 241 then false
        else if 242 ≤ c ∧ c ≤ 249 then goodAux none r
        else if c = 251 ∨ c = 252 ∨ c = 253 ∨ c = 254 then
          match r with
          | [] => false
          | _ :: r2 => goodAux none r2
        else if c = 255 then goodAux none r
        else if c = 240 then false
        else if c = 250 then goodAux (some false) r
        else false
    else goodAux none rest
  | some _, [] => false
  | some ne, x :: rest =>
    if x = 255 then
      match rest with
      | [] => false
      | c :: r =>
        if c = 255 then ne && goodAux (some true) r
        else if c = 240 then ne && goodAux none r
        else false
    else goodAux (some true) rest

/-- Byte streams with no dropped or truncated commands and only
    well-formed subnegotiations. -/
def goodInput (xs : List Nat) : Bool := goodAux none xs

/-- Subnegotiation accumulation round-trip, by strong induction on the
    input length: a well-formed subnegotiation body splits into an
    escaped payload, the IAC SE terminator and a well-formed remainder,
    and the decoder in accumulation mode emits exactly the unescaped
    payload appended to the accumulator. -/
theorem decodeAux_sub_len (n : Nat) : ∀ (xs : List Nat), xs.length ≤ n →
    ∀ acc : List Nat, goodAux (some (acc != [])) xs = true →
    ∃ p rest, xs = escapeIAC p ++ 255 :: 240 :: rest ∧
      goodAux none rest = true ∧ acc ++ p ≠ [] ∧
      (acc = [] → ∃ c p2, p = c :: p2 ∧ c ≠ 255) ∧
      decodeAux (some acc) xs =
        (match acc ++ p with
         | [] => .error ()
         | code :: payload =>
           consEvent (.subnegotiation code payload) (decodeAux none rest)) := by
  induction n with
  | zero =>
    intro xs hlen acc h
    have hx : xs = [] := List.eq_nil_of_length_eq_zero (Nat.le_zero.mp hlen)
    subst hx
    simp [goodAux] at h
  | succ n ih =>
    intro xs hlen acc h
    cases xs with
    | nil => simp [goodAux] at h
    | cons x rest =>
      by_cases hx : x = 255
      · subst hx
        cases rest with
        | nil => simp [goodAux] at h
        | cons c r =>
          by_cases hc : c = 255
          · subst hc
            simp [goodAux] at h
            obtain ⟨hne, hr⟩ := h
            have hlen' : r.length ≤ n := by simp at hlen; omega
            have hbne : ((acc ++ [255]) != []) = true := by simp
            have hih := ih r hlen' (acc ++ [255]) (by rw [hbne]; exact hr)
            obtain ⟨p, rest', heq, hgood, hnem, _, hdec⟩ := hih
            refine ⟨255 :: p, rest', ?_, hgood, by simp, ?_, ?_⟩
            · rw [heq]; simp [escapeIAC]
            · intro hnil; exact absurd hnil hne
            · rw [show decodeAux (some acc) (255 :: 255 :: r) =
                    decodeAux (some (acc ++ [255])) r from by simp [decodeAux]]
              rw [hdec, List.append_assoc]
              rfl
          · by_cases hc2 : c = 240
            · subst hc2
              simp [goodAux] at h
              obtain ⟨hne, hr⟩ := h
              cases acc with
              | nil => exact absurd rfl hne
              | cons cd pl =>
                refine ⟨[], r, by simp [escapeIAC], hr, by simp,
                  fun hnil => by simp at hnil, ?_⟩
                show decodeAux (some (cd :: pl)) (255 :: 240 :: r) = _
                simp [decodeAux]
            · simp [goodAux, hc, hc2] at h
      · rw [goodAux.eq_def] at h
        simp only [if_neg hx] at h
        have hlen' : rest.length ≤ n := by simp at hlen; omega
        have hbne : ((acc ++ [x]) != []) = true := by simp
        have hih := ih rest hlen' (acc ++ [x]) (by rw [hbne]; exact h)
        obtain ⟨p, rest', heq, hgood, hnem, _, hdec⟩ := hih
        refine ⟨x :: p, rest', ?_, hgood, by simp, ?_, ?_⟩
        · rw [show escapeIAC (x :: p) = x :: escapeIAC p from by simp [escapeIAC, hx]]
          rw [heq]
          rfl
        · intro hnil
          exact ⟨x, p, rfl, hx⟩
        · rw [show decodeAux (some acc) (x :: rest) =
                decodeAux (some (acc ++ [x])) rest from by
            rw [decodeAux.eq_def]; simp only [if_neg hx]]
          rw [hdec, List.append_assoc]
          rfl

/-- One-step unfolding of the top-level decoder on a cons cell. -/
theorem decodeAux_none_cons (x : Nat) (rest : List Nat) :
    decodeAux none (x :: rest) =
      if x = 255 then
        (match rest with
         | [] => .ok []
         | c :: r =>
           if c = 241 then decodeAux none r
           else if 242 ≤ c ∧ c ≤ 249 then consEvent (.func c) (decodeAux none r)
           else if c = 251 ∨ c = 252 ∨ c = 253 ∨ c = 254 then
             (match r with
              | [] => .ok []
              | o :: r2 => consEvent (.negotiation c o) (decodeAux none r2))
           else if c = 255 then consEvent (.data [255]) (decodeAux none r)
           else if c = 240 then .error ()
           else if c = 250 then decodeAux (some []) r
           else decodeAux none r)
      else consEvent (.data [x]) (decodeAux none rest) := by
  rw [decodeAux.eq_def]

/-- One-step unfolding of the lossless-input predicate on a cons cell. -/
theorem goodAux_none_cons (x : Nat) (rest : List Nat) :
    goodAux none (x :: rest) =
      if x = 255 then
        (match rest with
         | [] => false
         | c :: r =>
           if c = 241 then false
           else if 242 ≤ c ∧ c ≤ 249 then goodAux none r
           else if c = 251 ∨ c = 252 ∨ c = 253 ∨ c = 254 then
             (match r with
              | [] => false
              | _ :: r2 => goodAux none r2)
           else if c = 255 then goodAux none r
           else if c = 240 then false
           else if c = 250 then goodAux (some false) r
           else false)
      else goodAux none rest := by
  rw [goodAux.eq_def]

/-- Decode-then-encode round-trip on lossless inputs, by strong induction
    on the input length. -/
theorem decode_encode_len (n : Nat) : ∀ xs : List Nat, xs.length ≤ n →
    goodAux none xs = true →
    ∃ es, decodeAux none xs = .ok es ∧ encodeEvents es = xs := by
  induction n with
  | zero =>
    intro xs hlen h
    have hx : xs = [] := List.eq_nil_of_length_eq_zero (Nat.le_zero.mp hlen)
    subst hx
    exact ⟨[], rfl, rfl⟩
  | succ n ih =>
    intro xs hlen h
    cases xs with
    | nil => exact ⟨[], rfl, rfl⟩
    | cons x rest =>
      by_cases hx : x = 255
      · subst hx
        cases rest with
        | nil => simp [goodAux] at h
        | cons c r =>
          have hlenr : r.length ≤ n := by simp at hlen; omega
          by_cases h1 : c = 241
          · subst h1; simp [goodAux_none_cons] at h
          · by_cases h2 : 242 ≤ c ∧ c ≤ 249
            · simp [goodAux_none_cons, h1, h2] at h
              obtain ⟨es, hdec, henc⟩ := ih r hlenr h
              refine ⟨.func c :: es, ?_, ?_⟩
              · simp [decodeAux_none_cons, h1, h2, hdec, consEvent]
              · simp [encodeEvents, encodeEvent, henc]
            · by_cases h3 : c = 251 ∨ c = 252 ∨ c = 253 ∨ c = 254
              · cases r with
                | nil => simp [goodAux_none_cons, h1, h2, h3] at h
                | cons o r2 =>
                  simp [goodAux_none_cons, h1, h2, h3] at h
                  obtain ⟨es, hdec, henc⟩ := ih r2 (by simp at hlen; omega) h
                  refine ⟨.negotiation c o :: es, ?_, ?_⟩
                  · simp [decodeAux_none_cons, h1, h2, h3, hdec, consEvent]
                  · simp [encodeEvents, encodeEvent, henc]
              · by_cases h4 : c = 255
                · subst h4
                  simp [goodAux_none_cons] at h
                  obtain ⟨es, hdec, henc⟩ := ih r hlenr h
                  refine ⟨.data [255] :: es, ?_, ?_⟩
                  · simp [decodeAux_none_cons, hdec, consEvent]
                  · simp [encodeEvents, encodeEvent, escapeIAC, henc]
                · by_cases h5 : c = 240
                  · subst h5; simp [goodAux_none_cons] at h
                  · by_cases h6 : c = 250
                    · subst h6
                      simp [goodAux_none_cons] at h
                      have hsub := decodeAux_sub_len r.length r le_rfl []
                        (by simpa using h)
                      obtain ⟨p, rest, heq, hgood, hnem, hextra, hdec⟩ := hsub
                      obtain ⟨cd, p2, hp, hcd⟩ := hextra rfl
                      subst hp
                      have hlen2 : rest.length ≤ n := by
                        have hl := congrArg List.length heq
                        simp at hl hlen
                        omega
                      obtain ⟨es, hdecr, hencr⟩ := ih rest hlen2 hgood
                      refine ⟨.subnegotiation cd p2 :: es, ?_, ?_⟩
                      · rw [show decodeAux none (255 :: 250 :: r) =
                            decodeAux (some []) r from by simp [decodeAux_none_cons]]
                        rw [hdec]
                        simp [hdecr, consEvent]
                      · rw [heq]
                        simp [encodeEvents, encodeEvent, escapeIAC, hcd, hencr]
                    · simp [goodAux_none_cons, h1, h2, h3, h4, h5, h6] at h
      · rw [goodAux.eq_def] at h
        simp only [if_neg hx] at h
        obtain ⟨es, hdec, henc⟩ := ih rest (by simp at hlen; omega) h
        refine ⟨.data [x] :: es, ?_, ?_⟩
        · rw [show decodeAux none (x :: rest) =
              consEvent (.data [x]) (decodeAux none rest) from by
            rw [decodeAux.eq_def]; simp only [if_neg hx]]
          simp [hdec, consEvent]
        · simp [encodeEvents, encodeEvent, escapeIAC, hx, henc]

/-- C8 counterexample: the byte sequence 49, IAC, NOP, 52 contains no
    subnegotiation at all (hence no protocol-illegal subnegotiation
    pattern), yet re-encoding the decoder's events loses the IAC NOP,
    which the decoder silently drops, so the round trip does not
    reproduce the input byte-for-byte. -/
theorem claim_C8_counterexample :
    decodeEvents [49, 255, 241, 52] = .ok [.data [49], .data [52]] ∧
    encodeEvents [.data [49], .data [52]] = [49, 52] ∧
    [49, 52] ≠ [49, 255, 241, 52] :=
  ⟨rfl, rfl, by decide⟩

/-- C8 amended: for every byte sequence with no protocol-illegal
    subnegotiation pattern AND no byte dropped by the decoder (no IAC
    NOP, no IAC with unrecognized command byte, no command or
    subnegotiation truncated by end of stream, and no subnegotiation
    whose option code byte is IAC, which the re-encoder would not
    escape), re-encoding the emitted events reproduces the input
    byte-for-byte. -/
theorem claim_C8 (xs : List Nat) (h : goodInput xs = true) :
    ∃ es, decodeEvents xs = .ok es ∧ encodeEvents es = xs :=
  decode_encode_len xs.length xs le_rfl h

/-- C8 witness: a stream with data, an escaped IAC, a subnegotiation
    with an escaped payload byte, a negotiation and a control function
    round-trips exactly. -/
theorem claim_C8_witness :
    goodInput [49, 255, 255, 255, 250, 7, 1, 255, 255, 2, 255, 240,
               50, 255, 251, 3, 255, 246] = true ∧
    ∃ es,
      decodeEvents [49, 255, 255, 255, 250, 7, 1, 255, 255, 2, 255, 240,
                    50, 255, 251, 3, 255, 246] = .ok es ∧
      encodeEvents es = [49, 255, 255, 255, 250, 7, 1, 255, 255, 2, 255, 240,
                         50, 255, 251, 3, 255, 246] :=
  ⟨rfl, claim_C8 [49, 255, 255, 255, 250, 7, 1, 255, 255, 2, 255, 240,
                  50, 255, 251, 3, 255, 246] rfl⟩

/-- RFC 1143 Q-states per side per option (TelnetOptionQState in
    telnet/option.py). -/
inductive TelnetOptionQState where
  | no
  | yes
  | wantno_empty
  | wantno_opposite
  | wantyes_empty
  | wantyes_opposite
deriving DecidableEq, Repr

/-- TelnetOption._rfc1143_q_request: a local caller asks to activate or
    deactivate the option; returns the new state and, optionally, the
    polarity of the negotiation byte to emit (true for DO/WILL, false
    for DONT/WONT). -/
def rfc1143_q_request (state : TelnetOptionQState) (enabled : Bool) :
    TelnetOptionQState × Option Bool :=
  if enabled then
    match state with
    | .no => (.wantyes_empty, some true)
    | .wantno_empty => (.wantno_opposite, none)
    | .wantyes_opposite => (.wantyes_empty, none)
    | s => (s, none)
  else
    match state with
    | .yes => (.wantno_empty, some false)
    | .wantno_opposite => (.wantno_empty, none)
    | .wantyes_empty => (.wantyes_opposite, none)
    | s => (s, none)

/-- TelnetOption._rfc1143_q_respond: the peer sent a negotiation byte
    (activate = true for WILL/DO); returns the new state and an optional
    reply polarity.  should_accept is consulted only in the NO state and
    is abstracted as the constant accept (every handler in the repo
    returns a value independent of its mutable state). -/
def rfc1143_q_respond (accept : Bool) (state : TelnetOptionQState) (activate : Bool) :
    TelnetOptionQState × Option Bool :=
  if activate then
    match state with
    | .no => if accept then (.yes, some true) else (.no, some false)
    | .wantno_empty => (.no, none)
    | .wantno_opposite => (.yes, none)
    | .wantyes_empty => (.yes, none)
    | .wantyes_opposite => (.wantno_empty, some false)
    | s => (s, none)
  else
    match state with
    | .yes => (.no, some false)
    | .wantno_empty => (.no, none)
    | .wantno_opposite => (.wantyes_empty, some true)
    | .wantyes_empty => (.no, none)
    | .wantyes_opposite => (.no, none)
    | s => (s, none)

/-- A configuration of one option direction negotiated between two
    connected endpoints A and B: p is A's Q-state for the direction
    (side them on A), q is B's Q-state for the same direction (side us
    on B), ab the FIFO of DO/DONT bytes in flight from A to B and ba the
    FIFO of WILL/WONT bytes in flight from B to A (true = DO/WILL).
    The two directions of an option are independent subsystems, so one
    suffices. -/
structure NegConfig where
  p : TelnetOptionQState
  q : TelnetOptionQState
  ab : List Bool
  ba : List Bool
deriving DecidableEq, Repr

/-- TelnetOption.request on A's side them: update p and queue the
    emitted DO/DONT, if any. -/
def reqA (c : NegConfig) (e : Bool) : NegConfig :=
  match rfc1143_q_request c.p e with
  | (p', r) => { c with p := p', ab := c.ab ++ r.toList }

/-- TelnetOption.request on B's side us: update q and queue the emitted
    WILL/WONT, if any. -/
def reqB (c : NegConfig) (e : Bool) : NegConfig :=
  match rfc1143_q_request c.q e with
  | (q', r) => { c with q := q', ba := c.ba ++ r.toList }

/-- Deliver the oldest in-flight DO/DONT to B's respond: update q and
    queue the reply, if any.  none when nothing is in flight. -/
def deliverAB (accB : Bool) (c : NegConfig) : Option NegConfig :=
  match c.ab with
  | [] => none
  | m :: rest =>
    match rfc1143_q_respond accB c.q m with
    | (q', r) => some { c with q := q', ab := rest, ba := c.ba ++ r.toList }

/-- Deliver the oldest in-flight WILL/WONT to A's respond: update p and
    queue the reply, if any. -/
def deliverBA (accA : Bool) (c : NegConfig) : Option NegConfig :=
  match c.ba with
  | [] => none
  | m :: rest =>
    match rfc1143_q_respond accA c.p m with
    | (p', r) => some { c with p := p', ba := rest, ab := c.ab ++ r.toList }

/-- One step of the negotiation system: a local request on either side
    or the delivery of an in-flight message to the peer's respond. -/
inductive NegStep (accA accB : Bool) : NegConfig → NegConfig → Prop where
  | stepReqA (c : NegConfig) (e : Bool) : NegStep accA accB c (reqA c e)
  | stepReqB (c : NegConfig) (e : Bool) : NegStep accA accB c (reqB c e)
  | stepDelAB (c c' : NegConfig) : deliverAB accB c = some c' → NegStep accA accB c c'
  | stepDelBA (c c' : NegConfig) : deliverBA accA c = some c' → NegStep accA accB c c'

/-- The initial configuration: both ends NO, nothing in flight. -/
def negInit : NegConfig := ⟨.no, .no, [], []⟩

/-- Configurations reachable from NO/NO by any interleaving of requests
    and deliveries. -/
inductive NegReach (accA accB : Bool) : NegConfig → Prop where
  | init : NegReach accA accB negInit
  | step (c c' : NegConfig) : NegReach accA accB c → NegStep accA accB c c' →
      NegReach accA accB c'

/-- A chain of n message deliveries with no further local requests. -/
inductive DelChain (accA accB : Bool) : NegConfig → Nat → NegConfig → Prop where
  | refl (c : NegConfig) : DelChain accA accB c 0 c
  | stepAB (c c' c'' : NegConfig) (n : Nat) : deliverAB accB c = some c' →
      DelChain accA accB c' n c'' → DelChain accA accB c (n + 1) c''
  | stepBA (c c' c'' : NegConfig) (n : Nat) : deliverBA accA c = some c' →
      DelChain accA accB c' n c'' → DelChain accA accB c (n + 1) c''

/-- The exact set of configurations reachable from negInit for each
    accept-policy pair, each paired with the length of the longest
    delivery-only path starting there (its rank). -/
def reachTable : Bool → Bool → List (NegConfig × Nat)
  | true, true =>
    [(⟨.no, .no, [], []⟩, 0),
     (⟨.no, .wantno_empty, [false], []⟩, 1),
     (⟨.no, .wantno_opposite, [false], []⟩, 3),
     (⟨.no, .wantyes_empty, [], [true]⟩, 2),
     (⟨.no, .wantyes_opposite, [], [true]⟩, 4),
     (⟨.wantno_empty, .no, [], [false]⟩, 1),
     (⟨.wantno_empty, .wantno_empty, [false], [false]⟩, 2),
     (⟨.wantno_empty, .wantno_opposite, [false], [false]⟩, 4),
     (⟨.wantno_empty, .wantyes_empty, [], [false, true]⟩, 3),
     (⟨.wantno_empty, .wantyes_empty, [true, false], []⟩, 3),
     (⟨.wantno_empty, .wantyes_opposite, [], [false, true]⟩, 5),
     (⟨.wantno_empty, .wantyes_opposite, [true, false], []⟩, 3),
     (⟨.wantno_empty, .yes, [false], []⟩, 2),
     (⟨.wantno_opposite, .no, [], [false]⟩, 3),
     (⟨.wantno_opposite, .wantno_empty, [false], [false]⟩, 4),
     (⟨.wantno_opposite, .wantno_opposite, [false], [false]⟩, 4),
     (⟨.wantno_opposite, .wantyes_empty, [], [false, true]⟩, 3),
     (⟨.wantno_opposite, .wantyes_empty, [true, false], []⟩, 5),
     (⟨.wantno_opposite, .wantyes_opposite, [], [false, true]⟩, 5),
     (⟨.wantno_opposite, .wantyes_opposite, [true, false], []⟩, 5),
     (⟨.wantno_opposite, .yes, [false], []⟩, 4),
     (⟨.wantyes_empty, .no, [true], []⟩, 2),
     (⟨.wantyes_empty, .wantno_empty, [], [true, false]⟩, 3),
     (⟨.wantyes_empty, .wantno_empty, [false, true], []⟩, 3),
     (⟨.wantyes_empty, .wantno_opposite, [], [true, false]⟩, 5),
     (⟨.wantyes_empty, .wantno_opposite, [false, true], []⟩, 3),
     (⟨.wantyes_empty, .wantyes_empty, [true], [true]⟩, 2),
     (⟨.wantyes_empty, .wantyes_opposite, [true], [true]⟩, 4),
     (⟨.wantyes_empty, .yes, [], [true]⟩, 1),
     (⟨.wantyes_opposite, .no, [true], []⟩, 4),
     (⟨.wantyes_opposite, .wantno_empty, [], [true, false]⟩, 3),
     (⟨.wantyes_opposite, .wantno_empty, [false, true], []⟩, 5),
     (⟨.wantyes_opposite, .wantno_opposite, [], [true, false]⟩, 5),
     (⟨.wantyes_opposite, .wantno_opposite, [false, true], []⟩, 5),
     (⟨.wantyes_opposite, .wantyes_empty, [true], [true]⟩, 4),
     (⟨.wantyes_opposite, .wantyes_opposite, [true], [true]⟩, 4),
     (⟨.wantyes_opposite, .yes, [], [true]⟩, 3),
     (⟨.yes, .wantno_empty, [], [false]⟩, 2),
     (⟨.yes, .wantno_opposite, [], [false]⟩, 4),
     (⟨.yes, .wantyes_empty, [true], []⟩, 1),
     (⟨.yes, .wantyes_opposite, [true], []⟩, 3),
     (⟨.yes, .yes, [], []⟩, 0)]
  | true, false =>
    [(⟨.no, .no, [], []⟩, 0),
     (⟨.no, .wantno_empty, [false], []⟩, 1),
     (⟨.no, .wantno_opposite, [false], []⟩, 3),
     (⟨.no, .wantyes_empty, [], [true]⟩, 2),
     (⟨.no, .wantyes_opposite, [], [true]⟩, 4),
     (⟨.wantno_empty, .no, [], [false]⟩, 1),
     (⟨.wantno_empty, .wantno_empty, [false], [false]⟩, 2),
     (⟨.wantno_empty, .wantno_opposite, [false], [false]⟩, 4),
     (⟨.wantno_empty, .wantyes_empty, [], [false, true]⟩, 3),
     (⟨.wantno_empty, .wantyes_empty, [true, false], []⟩, 3),
     (⟨.wantno_empty, .wantyes_opposite, [], [false, true]⟩, 5),
     (⟨.wantno_empty, .wantyes_opposite, [true, false], []⟩, 3),
     (⟨.wantno_empty, .yes, [false], []⟩, 2),
     (⟨.wantno_opposite, .no, [], [false]⟩, 3),
     (⟨.wantno_opposite, .wantno_empty, [false], [false]⟩, 4),
     (⟨.wantno_opposite, .wantno_opposite, [false], [false]⟩, 4),
     (⟨.wantno_opposite, .wantyes_empty, [], [false, true]⟩, 3),
     (⟨.wantno_opposite, .wantyes_empty, [true, false], []⟩, 5),
     (⟨.wantno_opposite, .wantyes_opposite, [], [false, true]⟩, 5),
     (⟨.wantno_opposite, .wantyes_opposite, [true, false], []⟩, 5),
     (⟨.wantno_opposite, .yes, [false], []⟩, 4),
     (⟨.wantyes_empty, .no, [], [false]⟩, 1),
     (⟨.wantyes_empty, .no, [true], []⟩, 2),
     (⟨.wantyes_empty, .wantno_empty, [], [true, false]⟩, 3),
     (⟨.wantyes_empty, .wantno_empty, [false, true], []⟩, 3),
     (⟨.wantyes_empty, .wantno_opposite, [], [true, false]⟩, 5),
     (⟨.wantyes_empty, .wantno_opposite, [false, true], []⟩, 3),
     (⟨.wantyes_empty, .wantyes_empty, [], [false, true]⟩, 3),
     (⟨.wantyes_empty, .wantyes_empty, [true], [true]⟩, 2),
     (⟨.wantyes_empty, .wantyes_opposite, [], [false, true]⟩, 5),
     (⟨.wantyes_empty, .wantyes_opposite, [true], [true]⟩, 4),
     (⟨.wantyes_empty, .yes, [], [true]⟩, 1),
     (⟨.wantyes_opposite, .no, [], [false]⟩, 1),
     (⟨.wantyes_opposite, .no, [true], []⟩, 2),
     (⟨.wantyes_opposite, .wantno_empty, [], [true, false]⟩, 3),
     (⟨.wantyes_opposite, .wantno_empty, [false, true], []⟩, 3),
     (⟨.wantyes_opposite, .wantno_opposite, [], [true, false]⟩, 5),
     (⟨.wantyes_opposite, .wantno_opposite, [false, true], []⟩, 5),
     (⟨.wantyes_opposite, .wantyes_empty, [], [false, true]⟩, 3),
     (⟨.wantyes_opposite, .wantyes_empty, [true], [true]⟩, 4),
     (⟨.wantyes_opposite, .wantyes_opposite, [], [false, true]⟩, 5),
     (⟨.wantyes_opposite, .wantyes_opposite, [true], [true]⟩, 4),
     (⟨.wantyes_opposite, .yes, [], [true]⟩, 3),
     (⟨.yes, .wantno_empty, [], [false]⟩, 2),
     (⟨.yes, .wantno_opposite, [], [false]⟩, 4),
     (⟨.yes, .wantyes_empty, [true], []⟩, 1),
     (⟨.yes, .wantyes_opposite, [true], []⟩, 3),
     (⟨.yes, .yes, [], []⟩, 0)]
  | false, true =>
    [(⟨.no, .no, [], []⟩, 0),
     (⟨.no, .wantno_empty, [false], []⟩, 1),
     (⟨.no, .wantno_opposite, [false], []⟩, 3),
     (⟨.no, .wantyes_empty, [], [true]⟩, 2),
     (⟨.no, .wantyes_empty, [false], []⟩, 1),
     (⟨.no, .wantyes_opposite, [], [true]⟩, 2),
     (⟨.no, .wantyes_opposite, [false], []⟩, 1),
     (⟨.wantno_empty, .no, [], [false]⟩, 1),
     (⟨.wantno_empty, .wantno_empty, [false], [false]⟩, 2),
     (⟨.wantno_empty, .wantno_opposite, [false], [false]⟩, 4),
     (⟨.wantno_empty, .wantyes_empty, [], [false, true]⟩, 3),
     (⟨.wantno_empty, .wantyes_empty, [true, false], []⟩, 3),
     (⟨.wantno_empty, .wantyes_opposite, [], [false, true]⟩, 3),
     (⟨.wantno_empty, .wantyes_opposite, [true, false], []⟩, 3),
     (⟨.wantno_empty, .yes, [false], []⟩, 2),
     (⟨.wantno_opposite, .no, [], [false]⟩, 3),
     (⟨.wantno_opposite, .wantno_empty, [false], [false]⟩, 4),
     (⟨.wantno_opposite, .wantno_opposite, [false], [false]⟩, 4),
     (⟨.wantno_opposite, .wantyes_empty, [], [false, true]⟩, 3),
     (⟨.wantno_opposite, .wantyes_empty, [true, false], []⟩, 5),
     (⟨.wantno_opposite, .wantyes_opposite, [], [false, true]⟩, 5),
     (⟨.wantno_opposite, .wantyes_opposite, [true, false], []⟩, 5),
     (⟨.wantno_opposite, .yes, [false], []⟩, 4),
     (⟨.wantyes_empty, .no, [true], []⟩, 2),
     (⟨.wantyes_empty, .wantno_empty, [], [true, false]⟩, 3),
     (⟨.wantyes_empty, .wantno_empty, [false, true], []⟩, 3),
     (⟨.wantyes_empty, .wantno_opposite, [], [true, false]⟩, 5),
     (⟨.wantyes_empty, .wantno_opposite, [false, true], []⟩, 3),
     (⟨.wantyes_empty, .wantyes_empty, [false, true], []⟩, 3),
     (⟨.wantyes_empty, .wantyes_empty, [true], [true]⟩, 2),
     (⟨.wantyes_empty, .wantyes_opposite, [false, true], []⟩, 3),
     (⟨.wantyes_empty, .wantyes_opposite, [true], [true]⟩, 4),
     (⟨.wantyes_empty, .yes, [], [true]⟩, 1),
     (⟨.wantyes_opposite, .no, [true], []⟩, 4),
     (⟨.wantyes_opposite, .wantno_empty, [], [true, false]⟩, 3),
     (⟨.wantyes_opposite, .wantno_empty, [false, true], []⟩, 5),
     (⟨.wantyes_opposite, .wantno_opposite, [], [true, false]⟩, 5),
     (⟨.wantyes_opposite, .wantno_opposite, [false, true], []⟩, 5),
     (⟨.wantyes_opposite, .wantyes_empty, [false, true], []⟩, 5),
     (⟨.wantyes_opposite, .wantyes_empty, [true], [true]⟩, 4),
     (⟨.wantyes_opposite, .wantyes_opposite, [false, true], []⟩, 5),
     (⟨.wantyes_opposite, .wantyes_opposite, [true], [true]⟩, 4),
     (⟨.wantyes_opposite, .yes, [], [true]⟩, 3),
     (⟨.yes, .wantno_empty, [], [false]⟩, 2),
     (⟨.yes, .wantno_opposite, [], [false]⟩, 4),
     (⟨.yes, .wantyes_empty, [true], []⟩, 1),
     (⟨.yes, .wantyes_opposite, [true], []⟩, 3),
     (⟨.yes, .yes, [], []⟩, 0)]
  | false, false =>
    [(⟨.no, .no, [], []⟩, 0),
     (⟨.no, .wantno_empty, [false], []⟩, 1),
     (⟨.no, .wantno_opposite, [false], []⟩, 3),
     (⟨.no, .wantyes_empty, [], [true]⟩, 2),
     (⟨.no, .wantyes_empty, [false], []⟩, 1),
     (⟨.no, .wantyes_opposite, [], [true]⟩, 2),
     (⟨.no, .wantyes_opposite, [false], []⟩, 1),
     (⟨.wantno_empty, .no, [], [false]⟩, 1),
     (⟨.wantno_empty, .wantno_empty, [false], [false]⟩, 2),
     (⟨.wantno_empty, .wantno_opposite, [false], [false]⟩, 4),
     (⟨.wantno_empty, .wantyes_empty, [], [false, true]⟩, 3),
     (⟨.wantno_empty, .wantyes_empty, [true, false], []⟩, 3),
     (⟨.wantno_empty, .wantyes_opposite, [], [false, true]⟩, 3),
     (⟨.wantno_empty, .wantyes_opposite, [true, false], []⟩, 3),
     (⟨.wantno_empty, .yes, [false], []⟩, 2),
     (⟨.wantno_opposite, .no, [], [false]⟩, 3),
     (⟨.wantno_opposite, .wantno_empty, [false], [false]⟩, 4),
     (⟨.wantno_opposite, .wantno_opposite, [false], [false]⟩, 4),
     (⟨.wantno_opposite, .wantyes_empty, [], [false, true]⟩, 3),
     (⟨.wantno_opposite, .wantyes_empty, [true, false], []⟩, 5),
     (⟨.wantno_opposite, .wantyes_opposite, [], [false, true]⟩, 5),
     (⟨.wantno_opposite, .wantyes_opposite, [true, false], []⟩, 5),
     (⟨.wantno_opposite, .yes, [false], []⟩, 4),
     (⟨.wantyes_empty, .no, [], [false]⟩, 1),
     (⟨.wantyes_empty, .no, [true], []⟩, 2),
     (⟨.wantyes_empty, .wantno_empty, [], [true, false]⟩, 3),
     (⟨.wantyes_empty, .wantno_empty, [false, true], []⟩, 3),
     (⟨.wantyes_empty, .wantno_opposite, [], [true, false]⟩, 5),
     (⟨.wantyes_empty, .wantno_opposite, [false, true], []⟩, 3),
     (⟨.wantyes_empty, .wantyes_empty, [], [false, true]⟩, 3),
     (⟨.wantyes_empty, .wantyes_empty, [false, true], []⟩, 3),
     (⟨.wantyes_empty, .wantyes_empty, [true], [true]⟩, 2),
     (⟨.wantyes_empty, .wantyes_opposite, [], [false, true]⟩, 3),
     (⟨.wantyes_empty, .wantyes_opposite, [false, true], []⟩, 3),
     (⟨.wantyes_empty, .wantyes_opposite, [true], [true]⟩, 4),
     (⟨.wantyes_empty, .yes, [], [true]⟩, 1),
     (⟨.wantyes_opposite, .no, [], [false]⟩, 1),
     (⟨.wantyes_opposite, .no, [true], []⟩, 2),
     (⟨.wantyes_opposite, .wantno_empty, [], [true, false]⟩, 3),
     (⟨.wantyes_opposite, .wantno_empty, [false, true], []⟩, 3),
     (⟨.wantyes_opposite, .wantno_opposite, [], [true, false]⟩, 5),
     (⟨.wantyes_opposite, .wantno_opposite, [false, true], []⟩, 5),
     (⟨.wantyes_opposite, .wantyes_empty, [], [false, true]⟩, 3),
     (⟨.wantyes_opposite, .wantyes_empty, [false, true], []⟩, 3),
     (⟨.wantyes_opposite, .wantyes_empty, [true], [true]⟩, 4),
     (⟨.wantyes_opposite, .wantyes_opposite, [], [false, true]⟩, 3),
     (⟨.wantyes_opposite, .wantyes_opposite, [false, true], []⟩, 3),
     (⟨.wantyes_opposite, .wantyes_opposite, [true], [true]⟩, 4),
     (⟨.wantyes_opposite, .yes, [], [true]⟩, 3),
     (⟨.yes, .wantno_empty, [], [false]⟩, 2),
     (⟨.yes, .wantno_opposite, [], [false]⟩, 4),
     (⟨.yes, .wantyes_empty, [true], []⟩, 1),
     (⟨.yes, .wantyes_opposite, [true], []⟩, 3),
     (⟨.yes, .yes, [], []⟩, 0)]

/-- Membership in the reachable-configuration table. -/
def negInv (accA accB : Bool) (c : NegConfig) : Bool :=
  (reachTable accA accB).any (fun e => e.1 == c)

/-- The rank (longest delivery-only path length) of a configuration. -/
def negRank (accA accB : Bool) (c : NegConfig) : Nat :=
  (((reachTable accA accB).find? (fun e => e.1 == c)).map (fun e => e.2)).getD 0

/-- The table is closed under local requests on either side. -/
theorem negInv_requests : ∀ accA accB : Bool,
    ((reachTable accA accB).all fun e =>
      negInv accA accB (reqA e.1 true) && negInv accA accB (reqA e.1 false) &&
      negInv accA accB (reqB e.1 true) && negInv accA accB (reqB e.1 false)) = true := by
  decide

/-- The table is closed under deliveries, and every delivery strictly
    decreases the rank. -/
theorem negInv_deliveries : ∀ accA accB : Bool,
    ((reachTable accA accB).all fun e =>
      (match deliverAB accB e.1 with
       | none => true
       | some c' => negInv accA accB c' &&
           decide (negRank accA accB c' < negRank accA accB e.1)) &&
      (match deliverBA accA e.1 with
       | none => true
       | some c' => negInv accA accB c' &&
           decide (negRank accA accB c' < negRank accA accB e.1))) = true := by
  decide

/-- In every reachable configuration with empty queues, the two ends
    agree on whether the option is enabled. -/
theorem negInv_agreement : ∀ accA accB : Bool,
    ((reachTable accA accB).all fun e =>
      !(e.1.ab == [] && e.1.ba == []) ||
        ((e.1.p == TelnetOptionQState.yes) == (e.1.q == TelnetOptionQState.yes))) = true := by
  decide

/-- Every rank in the table is at most 5. -/
theorem negRank_table_le : ∀ accA accB : Bool,
    ((reachTable accA accB).all fun e => decide (e.2 ≤ 5)) = true := by
  decide

/-- A configuration satisfying the invariant appears in the table. -/
theorem negInv_mem {accA accB : Bool} {c : NegConfig}
    (h : negInv accA accB c = true) :
    ∃ e ∈ reachTable accA accB, e.1 = c := by
  simp only [negInv, List.any_eq_true, beq_iff_eq] at h
  exact h

/-- The rank of any configuration is at most 5. -/
theorem negRank_le (accA accB : Bool) (c : NegConfig) :
    negRank accA accB c ≤ 5 := by
  unfold negRank
  cases hf : (reachTable accA accB).find? (fun e => e.1 == c) with
  | none => simp
  | some e =>
    have hm := List.mem_of_find?_eq_some hf
    have := List.all_eq_true.mp (negRank_table_le accA accB) e hm
    simp at this ⊢
    omega

/-- Every reachable configuration satisfies the invariant. -/
theorem reach_negInv {accA accB : Bool} {c : NegConfig}
    (h : NegReach accA accB c) : negInv accA accB c = true := by
  induction h with
  | init =>
    cases accA <;> cases accB <;> decide
  | step c c' _ hs ih =>
    obtain ⟨e, hmem, hec⟩ := negInv_mem ih
    cases hs with
    | stepReqA e' =>
      have hall := List.all_eq_true.mp (negInv_requests accA accB) _ hmem
      simp only [Bool.and_eq_true] at hall
      rw [hec] at hall
      cases e'
      · exact hall.1.1.2
      · exact hall.1.1.1
    | stepReqB e' =>
      have hall := List.all_eq_true.mp (negInv_requests accA accB) _ hmem
      simp only [Bool.and_eq_true] at hall
      rw [hec] at hall
      cases e'
      · exact hall.2
      · exact hall.1.2
    | stepDelAB _ hd =>
      have hall := List.all_eq_true.mp (negInv_deliveries accA accB) _ hmem
      simp only [Bool.and_eq_true] at hall
      have h1 := hall.1
      rw [hec, hd] at h1
      rw [Bool.and_eq_true] at h1
      exact h1.1
    | stepDelBA _ hd =>
      have hall := List.all_eq_true.mp (negInv_deliveries accA accB) _ hmem
      simp only [Bool.and_eq_true] at hall
      have h1 := hall.2
      rw [hec, hd] at h1
      rw [Bool.and_eq_true] at h1
      exact h1.1

/-- Along a delivery chain from an invariant configuration, the chain
    length is bounded by the rank and the invariant is preserved. -/
theorem chain_negRank {accA accB : Bool} {c : NegConfig} {n : Nat} {c' : NegConfig}
    (hch : DelChain accA accB c n c') :
    negInv accA accB c = true →
    n ≤ negRank accA accB c ∧ negInv accA accB c' = true := by
  induction hch with
  | refl c =>
    intro hinv
    exact ⟨Nat.zero_le _, hinv⟩
  | stepAB c c1 c2 m hd _ ih =>
    intro hinv
    obtain ⟨e, hmem, hec⟩ := negInv_mem hinv
    have hall := List.all_eq_true.mp (negInv_deliveries accA accB) _ hmem
    simp only [Bool.and_eq_true] at hall
    have h1 := hall.1
    rw [hec, hd] at h1
    rw [Bool.and_eq_true] at h1
    have hlt : negRank accA accB c1 < negRank accA accB c := of_decide_eq_true h1.2
    obtain ⟨hn, hc2⟩ := ih h1.1
    exact ⟨by omega, hc2⟩
  | stepBA c c1 c2 m hd _ ih =>
    intro hinv
    obtain ⟨e, hmem, hec⟩ := negInv_mem hinv
    have hall := List.all_eq_true.mp (negInv_deliveries accA accB) _ hmem
    simp only [Bool.and_eq_true] at hall
    have h1 := hall.2
    rw [hec, hd] at h1
    rw [Bool.and_eq_true] at h1
    have hlt : negRank accA accB c1 < negRank accA accB c := of_decide_eq_true h1.2
    obtain ⟨hn, hc2⟩ := ih h1.1
    exact ⟨by omega, hc2⟩

/-- Delivery chains preserve reachability. -/
theorem chain_reach {accA accB : Bool} {c : NegConfig} {n : Nat} {c' : NegConfig}
    (hch : DelChain accA accB c n c') :
    NegReach accA accB c → NegReach accA accB c' := by
  induction hch with
  | refl c => exact id
  | stepAB c c1 c2 m hd _ ih =>
    intro h
    exact ih (NegReach.step c c1 h (NegStep.stepDelAB c c1 hd))
  | stepBA c c1 c2 m hd _ ih =>
    intro h
    exact ih (NegReach.step c c1 h (NegStep.stepDelBA c c1 hd))

/-- In an invariant configuration with empty queues the two sides agree
    on enabledness. -/
theorem negInv_quiescent {accA accB : Bool} {c : NegConfig}
    (h : negInv accA accB c = true) (hab : c.ab = []) (hba : c.ba = []) :
    (c.p = TelnetOptionQState.yes) ↔ (c.q = TelnetOptionQState.yes) := by
  obtain ⟨e, hmem, hec⟩ := negInv_mem h
  have hall := List.all_eq_true.mp (negInv_agreement accA accB) _ hmem
  rw [hec] at hall
  simp only [hab, hba] at hall
  simp at hall
  exact hall

/-- C9: for a single option starting from NO/NO on both sides, after any
    interleaving of local requests and message deliveries (NegReach),
    every delivery-only continuation (DelChain) exchanges at most 5
    further negotiation messages, and whenever the queues have drained
    the two sides agree on whether the option is enabled (state = YES on
    one side iff state = YES on the other). -/
theorem claim_C9 (accA accB : Bool) (c c' : NegConfig) (n : Nat)
    (hreach : NegReach accA accB c) (hchain : DelChain accA accB c n c') :
    n ≤ 5 ∧ (c'.ab = [] → c'.ba = [] →
      ((c'.p = TelnetOptionQState.yes) ↔ (c'.q = TelnetOptionQState.yes))) := by
  have hinv := reach_negInv hreach
  obtain ⟨hn, hinv'⟩ := chain_negRank hchain hinv
  exact ⟨le_trans hn (negRank_le accA accB c), fun hab hba =>
    negInv_quiescent hinv' hab hba⟩

/-- C9 witness: the initial configuration with the empty delivery chain:
    0 messages remain and both sides agree (the option is disabled on
    both). -/
theorem claim_C9_witness :
    NegReach true true negInit ∧ DelChain true true negInit 0 negInit ∧
    (0 ≤ 5 ∧ (negInit.ab = [] → negInit.ba = [] →
      ((negInit.p = TelnetOptionQState.yes) ↔ (negInit.q = TelnetOptionQState.yes)))) :=
  ⟨NegReach.init, DelChain.refl negInit,
    claim_C9 true true negInit negInit 0 NegReach.init (DelChain.refl negInit)⟩
